import Mathlib

/-!
Verification of the streaming-UI hooks module
(`amplifier_module_hooks_streaming_ui/__init__.py`).

The module is shallowly embedded: Python dictionary values become the
inductive `PyVal`, event payloads become association lists
`List (String × PyVal)`, the mutable `StreamingUIHooks` object becomes the
explicit state `UIState`, and each `async` handler becomes a function
`UIState → List (String × PyVal) → Except String ...` where the `Except`
error case models a Python exception propagating out of the handler.
Console output is modelled as the list of strings written to stdout and
stderr.  Rendering performed by the external `rich` library is modelled as
the identity on the text being rendered (no claim inspects rendered
markdown), and Python's `str()` on non-string values is modelled by
`pyDisplayStr` (quote-escaping inside `repr` of strings is not modelled;
no claim inspects it).
-/

namespace StreamingUI

/-- A Python value as it appears in event payloads: `None`, strings,
integers, booleans, string-keyed dictionaries and lists. -/
inductive PyVal where
  | none
  | str (s : String)
  | int (n : Int)
  | bool (b : Bool)
  | dict (entries : List (String × PyVal))
  | list (items : List PyVal)

/-- Python truthiness (`bool(v)`): `None`, `""`, `0`, `False` and empty
containers are falsy. -/
def PyVal.truthy : PyVal → Bool
  | .none => false
  | .str s => !s.data.isEmpty
  | .int n => n != 0
  | .bool b => b
  | .dict es => !es.isEmpty
  | .list l => !l.isEmpty

/-- Test for Python `None` (`v is None`). -/
def PyVal.isNone : PyVal → Bool
  | .none => true
  | _ => false

/-- First-match lookup in a string-keyed dictionary (`d[k]` / `d.get(k)`
for dictionaries without duplicate keys). -/
def lookupEntry : List (String × PyVal) → String → Option PyVal
  | [], _ => Option.none
  | (k, v) :: rest, key => if k = key then Option.some v else lookupEntry rest key

/-- Python `d.get(key, default)` on a dictionary given as an entry list. -/
def pyGetD (es : List (String × PyVal)) (key : String) (default : PyVal) : PyVal :=
  (lookupEntry es key).getD default

/-- Python `d.get(key)` with the implicit `None` default, as used by the
reasoning-block flattener. -/
def pyGet (es : List (String × PyVal)) (key : String) : PyVal :=
  pyGetD es key .none

/-- Python `a or b`: `a` if truthy, else `b`. -/
def pyOr (a b : PyVal) : PyVal :=
  if a.truthy then a else b

/-- Size bound used by the termination argument of `collect`. -/
def sizeOf_lookupEntry {es : List (String × PyVal)} {key : String} {v : PyVal}
    (h : lookupEntry es key = Option.some v) : sizeOf v < sizeOf es := by
  induction es with
  | nil => simp [lookupEntry] at h
  | cons hd tl ih =>
    rw [lookupEntry] at h
    split at h
    · cases h
      cases hd
      simp
      omega
    · have := ih h
      simp
      omega

/-- Size bound used by the termination argument of `collect`. -/
def sizeOf_pyGet (es : List (String × PyVal)) (key : String) :
    sizeOf (pyGet es key) < sizeOf (PyVal.dict es) := by
  have hes : 1 ≤ sizeOf es := by cases es <;> simp_arith
  unfold pyGet pyGetD
  cases h : lookupEntry es key with
  | none => simp; omega
  | some v =>
    have := sizeOf_lookupEntry h
    simp
    omega

/-- The fragment collector of `_flatten_reasoning_block._collect`: a
depth-first walk that appends non-empty strings; a mapping recurses over
its `text`, `thinking`, `summary`, `content` fields in that order; a
sequence recurses over its elements in order; other scalars contribute a
textual attribute when they have one (the modelled scalars have none). -/
def collect : PyVal → List String
  | .none => []
  | .int _ => []
  | .bool _ => []
  | .str s => if s = "" then [] else [s]
  | .dict es =>
      collect (pyGet es "text") ++ collect (pyGet es "thinking")
        ++ collect (pyGet es "summary") ++ collect (pyGet es "content")
  | .list items => (items.attach.map (fun x => collect x.1)).flatten
termination_by v => sizeOf v
decreasing_by
  · exact sizeOf_pyGet es "text"
  · exact sizeOf_pyGet es "thinking"
  · exact sizeOf_pyGet es "summary"
  · exact sizeOf_pyGet es "content"
  · have := List.sizeOf_lt_of_mem x.2
    simp
    omega

/-- The function `_flatten_reasoning_block`: collect fragments from the block's
`thinking`, `text`, `summary`, `content` fields (in that top-level order)
and join the truthy fragments with newlines. -/
def flatten_reasoning_block (block : List (String × PyVal)) : String :=
  let fragments := collect (pyGet block "thinking") ++ collect (pyGet block "text")
      ++ collect (pyGet block "summary") ++ collect (pyGet block "content")
  String.intercalate "\n" (fragments.filter (fun f => f != ""))

/-- The single-quote character, used by the model of Python `repr`. -/
def quoteChar : String := String.singleton (Char.ofNat 39)

/-- Model of Python `repr(v)` as used by `str()` on containers (escaping of
quotes embedded in strings is not modelled; no claim inspects it). -/
def pyRepr : PyVal → String
  | .none => "None"
  | .str s => quoteChar ++ s ++ quoteChar
  | .int n => toString n
  | .bool b => cond b "True" "False"
  | .dict es =>
      "\x7b" ++ String.intercalate ", "
        (es.attach.map (fun x => quoteChar ++ x.1.1 ++ quoteChar ++ ": " ++ pyRepr x.1.2))
        ++ "\x7d"
  | .list items =>
      "[" ++ String.intercalate ", " (items.attach.map (fun x => pyRepr x.1)) ++ "]"
termination_by v => sizeOf v
decreasing_by
  · have := List.sizeOf_lt_of_mem x.2
    obtain ⟨⟨k, v⟩, hm⟩ := x
    simp at this ⊢
    omega
  · have := List.sizeOf_lt_of_mem x.2
    simp
    omega

/-- Model of Python `str(v)`: identity on strings, `repr`-style elsewhere. -/
def pyDisplayStr : PyVal → String
  | .str s => s
  | v => pyRepr v

/-- Python `s.rstrip()`: drop trailing whitespace. -/
def pyRstrip (s : String) : String :=
  String.mk (s.data.reverse.dropWhile (fun c => c.isWhitespace)).reverse

/-- Characters after the first underscore of a character list, if any:
the combination of Python's `"_" in s` test and `s.split("_", 1)[1]`. -/
def afterFirstUnderscore : List Char → Option (List Char)
  | [] => Option.none
  | c :: rest => if c = '_' then Option.some rest else afterFirstUnderscore rest

/-- The method `_parse_agent_from_session_id`: `None` for a falsy session id; for a
string, the suffix after the first underscore when one exists, else `None`.
A truthy non-string session id raises (`"_" in x` on an int/bool is a
`TypeError`; a list/dict containing `"_"` passes the membership test and
then fails at `.split`). -/
def parse_agent_from_session_id (sessionId : PyVal) : Except String (Option String) :=
  if sessionId.truthy then
    match sessionId with
    | .str s =>
        match afterFirstUnderscore s.data with
        | Option.some rest => .ok (Option.some (String.mk rest))
        | Option.none => .ok Option.none
    | .int _ => .error "TypeError: argument of type int is not iterable"
    | .bool _ => .error "TypeError: argument of type bool is not iterable"
    | .list items =>
        if items.any (fun v => match v with | .str s => s == "_" | _ => false) then
          .error "AttributeError: list object has no attribute split"
        else .ok Option.none
    | .dict es =>
        if es.any (fun p => p.1 == "_") then
          .error "AttributeError: dict object has no attribute split"
        else .ok Option.none
    | .none => .ok Option.none
  else
    .ok Option.none

/-- The input of `_truncate_lines`: a string, `None`, or a non-string
value carrying the string Python's `str()` would produce for it. -/
inductive TruncInput where
  | pyStr (s : String)
  | pyNone
  | other (strForm : String)

/-- Split a character list at every newline, Python `split("\n")` style:
the empty list yields one empty piece and no piece is ever dropped. -/
def splitNlChars : List Char → List (List Char)
  | [] => [[]]
  | x :: rest =>
      match splitNlChars rest with
      | [] => [[]]
      | h :: t => if x = '\n' then [] :: h :: t else (x :: h) :: t

/-- Python `text.split("\n")`. -/
def pySplitLines (s : String) : List String :=
  (splitNlChars s.data).map String.mk

/-- Python `l[:n]` for a list of lines (negative `n` counts from the end). -/
def pySliceTo (l : List String) (n : Int) : List String :=
  if 0 ≤ n then l.take n.toNat else l.take (l.length - (-n).toNat)

/-- The f-string `f"... (\x7bn\x7d more chars)"`. -/
def charSuffix (n : Nat) : String := s!"... ({n} more chars)"

/-- The f-string `f"... (\x7bn\x7d more lines)"`. -/
def lineSuffix (n : Int) : String := s!"... ({n} more lines)"

/-- The method `_truncate_lines`: coerce to string (`None` → empty), `"(empty)"` for
the empty string, character-truncate a single line over 200 characters,
return unchanged when the line count fits, otherwise keep the first
`max_lines` lines plus an omitted-line-count suffix line. -/
def truncate_lines (text : TruncInput) (max_lines : Int) : String :=
  let t := match text with
    | .pyStr s => s
    | .pyNone => ""
    | .other f => f
  if t = "" then "(empty)"
  else
    let lines := pySplitLines t
    if lines.length = 1 ∧ 200 < t.length then
      t.take 200 ++ charSuffix (t.length - 200)
    else if (lines.length : Int) ≤ max_lines then t
    else
      let kept := pySliceTo lines max_lines
      let remaining := (lines.length : Int) - max_lines
      String.intercalate "\n" (kept ++ [lineSuffix remaining])

/-- Digit grouping of a reversed digit list: insert a comma after every
three characters. -/
def groupRev : List Char → List Char
  | a :: b :: c :: d :: rest => a :: b :: c :: ',' :: groupRev (d :: rest)
  | l => l

/-- Python `f"\x7bn:,\x7d"` for a natural number. -/
def commaNat (n : Nat) : String :=
  String.mk ((groupRev (toString n).data.reverse).reverse)

/-- Python `f"\x7bi:,\x7d"` for an integer. -/
def commaOfInt (i : Int) : String :=
  if i < 0 then "-" ++ commaNat i.natAbs else commaNat i.natAbs

/-- Python `+` on payload values: numeric addition (booleans count as
0/1), string and list concatenation; anything else raises `TypeError`. -/
def pyAdd : PyVal → PyVal → Except String PyVal
  | .int a, .int b => .ok (.int (a + b))
  | .int a, .bool b => .ok (.int (a + cond b 1 0))
  | .bool a, .int b => .ok (.int (cond a 1 0 + b))
  | .bool a, .bool b => .ok (.int (cond a 1 0 + cond b 1 0))
  | .str a, .str b => .ok (.str (a ++ b))
  | .list a, .list b => .ok (.list (a ++ b))
  | _, _ => .error "TypeError: unsupported operand types for +"

/-- Python `f"\x7bv:,\x7d"`: comma-grouped rendering for integers
(booleans format as integers); other values raise. -/
def pyFormatComma : PyVal → Except String String
  | .int n => .ok (commaOfInt n)
  | .bool b => .ok (cond b "1" "0")
  | _ => .error "TypeError: unsupported format string"

/-- A hashable Python value usable as a dictionary key; `True`/`False`
hash and compare equal to `1`/`0`, so booleans normalize to integers. -/
inductive PyKey where
  | noneK
  | strK (s : String)
  | intK (n : Int)
deriving DecidableEq

/-- The key a payload value denotes when used to index
`self.thinking_blocks`; `Option.none` for unhashable values. -/
def PyVal.asKey : PyVal → Option PyKey
  | .none => Option.some .noneK
  | .str s => Option.some (.strK s)
  | .int n => Option.some (.intK n)
  | .bool b => Option.some (.intK (cond b 1 0))
  | .dict _ => Option.none
  | .list _ => Option.none

/-- One tracked thinking block: the dictionary
`\x7b"started": True, "agent": agent_name\x7d`. -/
structure TrackEntry where
  started : Bool
  agent : Option String
deriving DecidableEq

/-- The `self.thinking_blocks` dictionary in insertion order. -/
abbrev TrackMap := List (PyKey × TrackEntry)

/-- Lookup in the tracking map. -/
def mapFind : TrackMap → PyKey → Option TrackEntry
  | [], _ => Option.none
  | (k, v) :: rest, key => if k = key then Option.some v else mapFind rest key

/-- Python `key in self.thinking_blocks`. -/
def mapContains (m : TrackMap) (k : PyKey) : Bool :=
  (mapFind m k).isSome

/-- Assignment `self.thinking_blocks[key] = v`: replace in place or append. -/
def mapInsert : TrackMap → PyKey → TrackEntry → TrackMap
  | [], key, v => [(key, v)]
  | (k, w) :: rest, key, v =>
      if k = key then (key, v) :: rest else (k, w) :: mapInsert rest key v

/-- Deletion `del self.thinking_blocks[key]`. -/
def mapErase (m : TrackMap) (key : PyKey) : TrackMap :=
  m.filter (fun p => p.1 != key)

/-- The mutable fields of a `StreamingUIHooks` instance, together with its
construction-time configuration. -/
structure UIState where
  show_thinking : Bool
  show_tool_lines : Int
  show_token_usage : Bool
  thinking_blocks : TrackMap
  buffered_token_usage : Option (PyVal × PyVal)

/-- The `HookResult` value a handler returns to the dispatcher. -/
structure HookResult where
  action : String
deriving DecidableEq

/-- The observable outcome of one handler invocation: the new state, the
lines written to stdout and to stderr, and the returned `HookResult`. -/
structure HandlerOut where
  state : UIState
  stdout : List String
  stderr : List String
  result : HookResult

/-- Wrap a handler body: every non-raising path of every handler ends in
`return HookResult(action="continue")`. -/
def withContinue (r : Except String (UIState × List String × List String)) :
    Except String HandlerOut :=
  r.map (fun x => ⟨x.1, x.2.1, x.2.2, ⟨"continue"⟩⟩)

/-- The membership test `block_type in \x7b"thinking", "reasoning"\x7d`. -/
def isThinkingType : PyVal → Bool
  | .str s => s == "thinking" || s == "reasoning"
  | _ => false

/-- The comparison `status != "ok"` is the negation of this test. -/
def isOkStatus : PyVal → Bool
  | .str s => s == "ok"
  | _ => false

/-- Truthiness of an optional string (`if agent_name:`). -/
def strOptTruthy : Option String → Bool
  | Option.some s => s != ""
  | Option.none => false

/-- The body of `handle_content_block_start` before the final `return`. -/
def handle_content_block_start_core (st : UIState) (data : List (String × PyVal)) :
    Except String (UIState × List String × List String) := do
  let block_type := pyGet data "block_type"
  let block_index := pyGet data "block_index"
  let session_id := pyGet data "session_id"
  let agent_name ← parse_agent_from_session_id session_id
  if isThinkingType block_type && st.show_thinking && !block_index.isNone then
    match block_index.asKey with
    | Option.none => .error "TypeError: unhashable type"
    | Option.some k =>
      let st' := { st with thinking_blocks := mapInsert st.thinking_blocks k ⟨true, agent_name⟩ }
      if strOptTruthy agent_name then
        let a := agent_name.getD ""
        .ok (st', [], [s!"\n    \x1b[36m🤔 [{a}] Thinking...\x1b[0m\n"])
      else
        .ok (st', [], ["\n\x1b[36m🧠 Thinking...\x1b[0m\n"])
  else
    .ok (st, [], [])

/-- Handler for `content_block:start`. -/
def handle_content_block_start (st : UIState) (data : List (String × PyVal)) :
    Except String HandlerOut :=
  withContinue (handle_content_block_start_core st data)

/-- External `rich` markdown rendering, modelled as the identity on the
rendered text (no claim inspects the rendered form). -/
def renderMarkdown (s : String) : String := s

/-- Python `"=" * 56`. -/
def bannerEq56 : String := String.mk (List.replicate 56 '=')
/-- Python `"-" * 56`. -/
def bannerDash56 : String := String.mk (List.replicate 56 '-')
/-- Python `"=" * 60`. -/
def bannerEq60 : String := String.mk (List.replicate 60 '=')
/-- Python `"-" * 60`. -/
def bannerDash60 : String := String.mk (List.replicate 60 '-')

/-- The stdout lines printed for a sub-agent thinking block. -/
def agentThinkingLines (agent ttext : String) : List String :=
  let rendered := renderMarkdown ttext
  [s!"\n    \x1b[90m{bannerEq56}\x1b[0m",
   s!"    \x1b[90m[{agent}] Thinking:\x1b[0m",
   s!"    \x1b[90m{bannerDash56}\x1b[0m"]
  ++ (pySplitLines (pyRstrip rendered)).map (fun line => "    " ++ line)
  ++ [s!"    \x1b[90m{bannerEq56}\x1b[0m\n"]

/-- The stdout lines printed for a parent-context thinking block. -/
def parentThinkingLines (ttext : String) : List String :=
  let rendered := renderMarkdown ttext
  [s!"\n\x1b[90m{bannerEq60}\x1b[0m",
   "\x1b[90mThinking:\x1b[0m",
   s!"\x1b[90m{bannerDash60}\x1b[0m",
   pyRstrip rendered,
   s!"\x1b[90m{bannerEq60}\x1b[0m\n"]

/-- The body of `handle_content_block_end` before the final `return`.  Reading
`block.get("type")` on a non-dictionary block raises; a truthy
non-string extracted text raises inside the markdown renderer. -/
def handle_content_block_end_core (st : UIState) (data : List (String × PyVal)) :
    Except String (UIState × List String × List String) := do
  let block_index := pyGet data "block_index"
  let block := pyGetD data "block" (.dict [])
  match block with
  | .dict bes =>
    if isThinkingType (pyGet bes "type") && !block_index.isNone then
      match block_index.asKey with
      | Option.none => .error "TypeError: unhashable type"
      | Option.some k =>
        match mapFind st.thinking_blocks k with
        | Option.some entry =>
          let thinking_text := pyOr
            (pyOr (pyGetD bes "thinking" (.str "")) (pyGetD bes "text" (.str "")))
            (.str (flatten_reasoning_block bes))
          let outLines ←
            if thinking_text.truthy then
              match thinking_text with
              | .str ttext =>
                if strOptTruthy entry.agent then
                  pure (agentThinkingLines (entry.agent.getD "") ttext)
                else
                  pure (parentThinkingLines ttext)
              | _ => Except.error "TypeError: markdown rendering requires str"
            else pure []
          .ok ({ st with thinking_blocks := mapErase st.thinking_blocks k }, outLines, [])
        | Option.none => .ok (st, [], [])
    else .ok (st, [], [])
  | _ => .error "AttributeError: object has no attribute get"

/-- Handler for `content_block:end`. -/
def handle_content_block_end (st : UIState) (data : List (String × PyVal)) :
    Except String HandlerOut :=
  withContinue (handle_content_block_end_core st data)

/-- The body of `handle_tool_pre` before the final `return`. -/
def handle_tool_pre_core (st : UIState) (data : List (String × PyVal)) :
    Except String (UIState × List String × List String) := do
  let tool_name := pyGetD data "tool_name" (.str "unknown")
  let tool_input := pyGetD data "tool_input" (.dict [])
  let session_id := pyGet data "session_id"
  let agent_name ← parse_agent_from_session_id session_id
  let input_str := if tool_input.isNone then "" else pyDisplayStr tool_input
  let truncated := truncate_lines (.pyStr input_str) st.show_tool_lines
  let tname := pyDisplayStr tool_name
  if strOptTruthy agent_name then
    let a := agent_name.getD ""
    .ok (st,
      [s!"\n    \x1b[36m┌─ 🔧 [{a}] Using tool: {tname}\x1b[0m",
       s!"    \x1b[36m│\x1b[0m  \x1b[2mArguments: {truncated}\x1b[0m"], [])
  else
    .ok (st,
      [s!"\n\x1b[36m🔧 Using tool: {tname}\x1b[0m",
       s!"   \x1b[2mArguments: {truncated}\x1b[0m"], [])

/-- Handler for `tool:pre`. -/
def handle_tool_pre (st : UIState) (data : List (String × PyVal)) :
    Except String HandlerOut :=
  withContinue (handle_tool_pre_core st data)

/-- The body of `handle_tool_post` before the final `return`. -/
def handle_tool_post_core (st : UIState) (data : List (String × PyVal)) :
    Except String (UIState × List String × List String) := do
  let tool_name := pyGetD data "tool_name" (.str "unknown")
  let result := pyGetD data "tool_response" (pyGetD data "result" (.dict []))
  let session_id := pyGet data "session_id"
  let agent_name ← parse_agent_from_session_id session_id
  let outputSuccess :=
    match result with
    | .dict res =>
        let o := pyGet res "output"
        let outputStr := if o.isNone then pyDisplayStr (.dict res) else pyDisplayStr o
        (outputStr, (pyGetD res "success" (.bool true)).truthy)
    | r => (if r.isNone then "" else pyDisplayStr r, true)
  let truncated := truncate_lines (.pyStr outputSuccess.1) st.show_tool_lines
  let icon := if outputSuccess.2 then "✅" else "❌"
  let tname := pyDisplayStr tool_name
  if strOptTruthy agent_name then
    let a := agent_name.getD ""
    .ok (st,
      [s!"    \x1b[36m└─ {icon} [{a}] Tool result: {tname}\x1b[0m",
       s!"       \x1b[2m{truncated}\x1b[0m\n"], [])
  else
    .ok (st,
      [s!"\x1b[36m{icon} Tool result: {tname}\x1b[0m",
       s!"   \x1b[2m{truncated}\x1b[0m\n"], [])

/-- Handler for `tool:post`. -/
def handle_tool_post (st : UIState) (data : List (String × PyVal)) :
    Except String HandlerOut :=
  withContinue (handle_tool_post_core st data)

/-- The body of `handle_llm_response` before the final `return`: buffer usage counters
when enabled, the status is the success sentinel (defaulting to `"ok"` if
absent) and a truthy usage value is present. -/
def handle_llm_response_core (st : UIState) (data : List (String × PyVal)) :
    Except String (UIState × List String × List String) :=
  if !st.show_token_usage then .ok (st, [], [])
  else
    let status := pyGetD data "status" (.str "ok")
    if !isOkStatus status then .ok (st, [], [])
    else
      let usage := pyGetD data "usage" (.dict [])
      if !usage.truthy then .ok (st, [], [])
      else
        match usage with
        | .dict ues =>
            .ok ({ st with buffered_token_usage :=
                    Option.some (pyGetD ues "input" (.int 0), pyGetD ues "output" (.int 0)) },
              [], [])
        | _ => .error "AttributeError: object has no attribute get"

/-- Handler for `llm:response`. -/
def handle_llm_response (st : UIState) (data : List (String × PyVal)) :
    Except String HandlerOut :=
  withContinue (handle_llm_response_core st data)

/-- The body of `handle_prompt_complete` before the final `return`: flush the buffered
usage record, if any. -/
def handle_prompt_complete_core (st : UIState) (_data : List (String × PyVal)) :
    Except String (UIState × List String × List String) :=
  match st.buffered_token_usage with
  | Option.none => .ok (st, [], [])
  | Option.some (inputv, outputv) => do
      let totalv ← pyAdd inputv outputv
      let input_str ← pyFormatComma inputv
      let output_str ← pyFormatComma outputv
      let total_str ← pyFormatComma totalv
      .ok ({ st with buffered_token_usage := Option.none },
        ["",
         "\x1b[2m│  📊 Token Usage\x1b[0m",
         s!"\x1b[2m└─ Input: {input_str} | Output: {output_str} | Total: {total_str}\x1b[0m"], [])

/-- Handler for `prompt:complete`. -/
def handle_prompt_complete (st : UIState) (data : List (String × PyVal)) :
    Except String HandlerOut :=
  withContinue (handle_prompt_complete_core st data)

/-- Decidable substring test, used to state what a printed line contains. -/
def strContains (hay needle : String) : Bool :=
  (List.range (hay.data.length + 1)).any
    (fun i => ((hay.data.drop i).take needle.data.length) == needle.data)

/-- The flattening function as the claim words it: a depth-first traversal
that treats every mapping — the top-level payload included — with the
fixed field order `text, thinking, summary, content`.  Stated only to be
compared with `flatten_reasoning_block`, which orders the top-level
fields differently. -/
def claimedFlatten (block : List (String × PyVal)) : String :=
  String.intercalate "\n" ((collect (.dict block)).filter (fun f => f != ""))

/-- A freshly constructed `StreamingUIHooks(True, 5, True)` instance. -/
def st0 : UIState := ⟨true, 5, true, [], Option.none⟩

/-- The same instance after a start event tracked block index `0` in the
parent context. -/
def stTracked : UIState := ⟨true, 5, true, [(.intK 0, ⟨true, Option.none⟩)], Option.none⟩

/-! ## Helper lemmas -/

theorem withContinue_ok {r : Except String (UIState × List String × List String)}
    {out : HandlerOut} (h : withContinue r = .ok out) : out.result = ⟨"continue"⟩ := by
  cases r with
  | error e => simp [withContinue, Except.map] at h
  | ok x => simp [withContinue, Except.map] at h; subst h; rfl

theorem afterFirstUnderscore_append {before : List Char} (after : List Char)
    (h : '_' ∉ before) :
    afterFirstUnderscore (before ++ '_' :: after) = Option.some after := by
  induction before with
  | nil => simp [afterFirstUnderscore]
  | cons c rest ih =>
    have hc : ¬(c = '_') := fun hh => h (hh ▸ List.mem_cons_self c rest)
    simp only [List.cons_append, afterFirstUnderscore, if_neg hc]
    exact ih (fun hm => h (List.mem_cons_of_mem c hm))

theorem afterFirstUnderscore_none {l : List Char} (h : '_' ∉ l) :
    afterFirstUnderscore l = Option.none := by
  induction l with
  | nil => rfl
  | cons c rest ih =>
    have hc : ¬(c = '_') := fun hh => h (hh ▸ List.mem_cons_self c rest)
    simp only [afterFirstUnderscore, if_neg hc]
    exact ih (fun hm => h (List.mem_cons_of_mem c hm))

/-! ## C2: agent-name resolution -/

/-- C2: a session-identifier string with at least one underscore resolves
to exactly the substring after the first underscore, verbatim (so `"_"`
yields the empty string); a non-empty string with no underscore, the empty
string, and an absent identifier all resolve to nothing. -/
theorem c2_agent_resolution :
    (∀ before after : List Char, '_' ∉ before →
      parse_agent_from_session_id (.str (String.mk (before ++ '_' :: after)))
        = .ok (Option.some (String.mk after))) ∧
    parse_agent_from_session_id (.str "_") = .ok (Option.some "") ∧
    (∀ s : String, s ≠ "" → '_' ∉ s.data →
      parse_agent_from_session_id (.str s) = .ok Option.none) ∧
    parse_agent_from_session_id .none = .ok Option.none ∧
    parse_agent_from_session_id (.str "") = .ok Option.none := by
  refine ⟨?_, rfl, ?_, rfl, rfl⟩
  · intro before after h
    have ht : (PyVal.str (String.mk (before ++ '_' :: after))).truthy = true := by
      simp [PyVal.truthy]
    simp only [parse_agent_from_session_id, ht, if_true]
    rw [afterFirstUnderscore_append after h]
  · intro s hs hu
    have hd : s.data ≠ [] := by
      intro hnil
      apply hs
      cases s
      simp at hnil
      simp [hnil]
    have ht : (PyVal.str s).truthy = true := by
      simp [PyVal.truthy, List.isEmpty_iff, hd]
    simp only [parse_agent_from_session_id, ht, if_true]
    rw [afterFirstUnderscore_none hu]

/-- Witness for C2 at `"a_b"` and `"ab"`. -/
theorem c2_agent_resolution_witness :
    parse_agent_from_session_id (.str (String.mk (['a'] ++ '_' :: ['b'])))
      = .ok (Option.some (String.mk ['b'])) ∧
    parse_agent_from_session_id (.str "ab") = .ok Option.none :=
  ⟨c2_agent_resolution.1 ['a'] ['b'] (by decide),
   c2_agent_resolution.2.2.1 "ab" (by decide) (by decide)⟩

/-! ## C4: usage buffering and flush, concrete scenario -/

/-- C4: with token-usage display enabled, capturing
`status="ok", usage=\x7binput:1234, output:567\x7d` and then handling one
completion event prints a summary containing `"1,234"`, `"567"` and the
thousands-separated total `"1,801"` and clears the buffer; a second
completion event with no intervening capture prints nothing and does not
error. -/
theorem c4_usage_capture_and_flush :
    handle_llm_response st0
        [("status", .str "ok"), ("usage", .dict [("input", .int 1234), ("output", .int 567)])]
      = .ok ⟨{ st0 with buffered_token_usage := Option.some (.int 1234, .int 567) },
          [], [], ⟨"continue"⟩⟩ ∧
    handle_prompt_complete { st0 with buffered_token_usage := Option.some (.int 1234, .int 567) } []
      = .ok ⟨st0,
          ["",
           "\x1b[2m│  📊 Token Usage\x1b[0m",
           "\x1b[2m└─ Input: 1,234 | Output: 567 | Total: 1,801\x1b[0m"], [], ⟨"continue"⟩⟩ ∧
    strContains "\x1b[2m└─ Input: 1,234 | Output: 567 | Total: 1,801\x1b[0m" "1,234" = true ∧
    strContains "\x1b[2m└─ Input: 1,234 | Output: 567 | Total: 1,801\x1b[0m" "567" = true ∧
    strContains "\x1b[2m└─ Input: 1,234 | Output: 567 | Total: 1,801\x1b[0m" "1,801" = true ∧
    handle_prompt_complete st0 [] = .ok ⟨st0, [], [], ⟨"continue"⟩⟩ :=
  ⟨rfl, rfl, by decide, by decide, by decide, rfl⟩

/-! ## C6: non-ok status suppresses capture -/

/-- C6: a response event whose status field is present and differs from
`"ok"` leaves the whole handler state (in particular the usage buffer)
unchanged and prints nothing; when the buffer is empty, a subsequent
completion event prints nothing. -/
theorem c6_non_ok_status_suppresses :
    ∀ (st : UIState) (data : List (String × PyVal)) (v : PyVal),
      lookupEntry data "status" = Option.some v →
      isOkStatus v = false →
      handle_llm_response st data = .ok ⟨st, [], [], ⟨"continue"⟩⟩ ∧
      (st.buffered_token_usage = Option.none →
        ∀ d2, handle_prompt_complete st d2 = .ok ⟨st, [], [], ⟨"continue"⟩⟩) := by
  intro st data v hs hok
  constructor
  · cases hu : st.show_token_usage with
    | true =>
        simp [handle_llm_response, withContinue, handle_llm_response_core, hu,
          pyGetD, hs, hok, Except.map]
    | false =>
        simp [handle_llm_response, withContinue, handle_llm_response_core, hu, Except.map]
  · intro hb d2
    simp [handle_prompt_complete, withContinue, handle_prompt_complete_core, hb, Except.map]

/-- Witness for C6: an `"error"` status with an empty buffer. -/
theorem c6_non_ok_status_suppresses_witness :
    handle_llm_response st0 [("status", .str "error")] = .ok ⟨st0, [], [], ⟨"continue"⟩⟩ ∧
    handle_prompt_complete st0 [] = .ok ⟨st0, [], [], ⟨"continue"⟩⟩ :=
  ⟨(c6_non_ok_status_suppresses st0 [("status", .str "error")] (.str "error") rfl rfl).1,
   (c6_non_ok_status_suppresses st0 [("status", .str "error")] (.str "error") rfl rfl).2 rfl []⟩

/-! ## C10: absent status treated as success -/

/-- C10: with token-usage display enabled and a non-empty usage mapping,
an absent status field is treated as the `"ok"` sentinel: the capture
handler buffers the `input`/`output` counters (defaulting to 0) and
prints nothing. -/
theorem c10_absent_status_is_ok :
    ∀ (st : UIState) (data : List (String × PyVal)) (ues : List (String × PyVal)),
      st.show_token_usage = true →
      lookupEntry data "status" = Option.none →
      lookupEntry data "usage" = Option.some (.dict ues) →
      ues ≠ [] →
      handle_llm_response st data =
        .ok ⟨{ st with buffered_token_usage :=
                Option.some (pyGetD ues "input" (.int 0), pyGetD ues "output" (.int 0)) },
          [], [], ⟨"continue"⟩⟩ := by
  intro st data ues hshow hs hu hne
  simp [handle_llm_response, withContinue, handle_llm_response_core, hshow,
    pyGetD, hs, hu, isOkStatus, PyVal.truthy, List.isEmpty_iff, hne, Except.map]

/-- Witness for C10 at a one-entry usage mapping. -/
theorem c10_absent_status_is_ok_witness :
    handle_llm_response st0 [("usage", .dict [("input", .int 3)])] =
      .ok ⟨{ st0 with buffered_token_usage :=
              Option.some (pyGetD [("input", .int 3)] "input" (.int 0),
                           pyGetD [("input", .int 3)] "output" (.int 0)) },
        [], [], ⟨"continue"⟩⟩ :=
  c10_absent_status_is_ok st0 [("usage", .dict [("input", .int 3)])] [("input", .int 3)]
    rfl rfl rfl (List.cons_ne_nil _ _)

/-! ## C7: handlers and the continuation signal -/

/-- C7 counterexample: a block-end event whose `block` field is a string
rather than a mapping makes the handler raise (`block.get("type")` on a
string is an `AttributeError`), so an error does surface to the
dispatcher and no continuation value is returned. -/
theorem c7_counterexample_malformed_block_raises :
    handle_content_block_end st0 [("block", .str "oops")]
      = .error "AttributeError: object has no attribute get" := rfl

/-- C7 as amended: every handler that completes without raising returns
the continuation value `action="continue"`; a payload field read as a
mapping but holding a truthy non-mapping value can instead raise, and the
error propagates to the dispatcher. -/
theorem c7_amended_continue_on_success :
    ∀ (st : UIState) (data : List (String × PyVal)) (out : HandlerOut),
      (handle_content_block_start st data = .ok out → out.result = ⟨"continue"⟩) ∧
      (handle_content_block_end st data = .ok out → out.result = ⟨"continue"⟩) ∧
      (handle_tool_pre st data = .ok out → out.result = ⟨"continue"⟩) ∧
      (handle_tool_post st data = .ok out → out.result = ⟨"continue"⟩) ∧
      (handle_llm_response st data = .ok out → out.result = ⟨"continue"⟩) ∧
      (handle_prompt_complete st data = .ok out → out.result = ⟨"continue"⟩) := by
  intro st data out
  exact ⟨withContinue_ok, withContinue_ok, withContinue_ok,
    withContinue_ok, withContinue_ok, withContinue_ok⟩

/-- Witness for the amended C7: a completion event on a fresh instance. -/
theorem c7_amended_continue_on_success_witness :
    (⟨st0, [], [], ⟨"continue"⟩⟩ : HandlerOut).result = ⟨"continue"⟩ :=
  (c7_amended_continue_on_success st0 [] ⟨st0, [], [], ⟨"continue"⟩⟩).2.2.2.2.2 rfl

/-! ## C9: block-end for an untracked index is a no-op -/

/-- C9: a block-end event whose block index was never start-tracked leaves
the state (tracking map and usage buffer alike) unchanged and produces no
output on either stream. -/
theorem c9_untracked_end_noop :
    ∀ (st : UIState) (data : List (String × PyVal)) (out : HandlerOut),
      (∀ k, (pyGet data "block_index").asKey = Option.some k →
         mapContains st.thinking_blocks k = false) →
      handle_content_block_end st data = .ok out →
      out.state = st ∧ out.stdout = [] ∧ out.stderr = [] := by
  intro st data out huntracked h
  rw [handle_content_block_end] at h
  rw [handle_content_block_end_core] at h
  cases hb : pyGetD data "block" (.dict []) with
  | dict bes =>
    rw [hb] at h
    simp only at h
    split at h
    · split at h
      · simp [withContinue, Except.map] at h
      · rename_i k2 hk2
        split at h
        · rename_i entry hf
          have hc := huntracked k2 hk2
          rw [mapContains, hf] at hc
          simp at hc
        · simp [withContinue, Except.map] at h
          subst h
          exact ⟨rfl, rfl, rfl⟩
    · simp [withContinue, Except.map] at h
      subst h
      exact ⟨rfl, rfl, rfl⟩
  | none =>
    rw [hb] at h
    simp [withContinue, Except.map] at h
  | str s =>
    rw [hb] at h
    simp [withContinue, Except.map] at h
  | int n =>
    rw [hb] at h
    simp [withContinue, Except.map] at h
  | bool b =>
    rw [hb] at h
    simp [withContinue, Except.map] at h
  | list l =>
    rw [hb] at h
    simp [withContinue, Except.map] at h

/-- Witness for C9: an end event for index 7 on a fresh instance. -/
theorem c9_untracked_end_noop_witness :
    (⟨st0, [], [], ⟨"continue"⟩⟩ : HandlerOut).state = st0 :=
  (c9_untracked_end_noop st0 [("block_index", .int 7)] ⟨st0, [], [], ⟨"continue"⟩⟩
    (by intro k hk; cases hk; rfl) rfl).1

theorem mapFind_mapInsert (m : TrackMap) (k : PyKey) (v : TrackEntry) :
    mapFind (mapInsert m k v) k = Option.some v := by
  induction m with
  | nil => simp [mapInsert, mapFind]
  | cons p rest ih =>
    obtain ⟨k1, v1⟩ := p
    by_cases hk : k1 = k
    · simp [mapInsert, hk, mapFind]
    · simp [mapInsert, hk, mapFind, ih]

theorem mapFind_mapErase (m : TrackMap) (k : PyKey) :
    mapFind (mapErase m k) k = Option.none := by
  induction m with
  | nil => rfl
  | cons p rest ih =>
    obtain ⟨k1, v1⟩ := p
    by_cases hk : k1 = k
    · have hb : (k1 != k) = false := by simp [bne_iff_ne, hk]
      simp only [mapErase, List.filter, hb] at ih ⊢
      exact ih
    · have hb : (k1 != k) = true := by simp [bne_iff_ne, hk]
      simp only [mapErase, List.filter, hb] at ih ⊢
      simp only [mapFind, if_neg hk]
      exact ih

/-! ## C8: block-start tracking condition -/

/-- C8: a block-start event creates a tracked entry exactly when the block
type is `thinking`/`reasoning`, the show-thinking feature is enabled and a
block index is present; in particular a `"text"` block never creates one. -/
theorem c8_start_tracks_iff :
    ∀ (st : UIState) (data : List (String × PyVal)) (out : HandlerOut),
      handle_content_block_start st data = .ok out →
      ((isThinkingType (pyGet data "block_type") && st.show_thinking
          && !(pyGet data "block_index").isNone) = false →
        out.state.thinking_blocks = st.thinking_blocks) ∧
      ((isThinkingType (pyGet data "block_type") && st.show_thinking
          && !(pyGet data "block_index").isNone) = true →
        ∃ k, (pyGet data "block_index").asKey = Option.some k ∧
          mapContains out.state.thinking_blocks k = true) ∧
      (pyGet data "block_type" = PyVal.str "text" →
        out.state.thinking_blocks = st.thinking_blocks) := by
  intro st data out h
  rw [handle_content_block_start, handle_content_block_start_core] at h
  cases hp : parse_agent_from_session_id (pyGet data "session_id") with
  | error e =>
    rw [hp] at h
    simp [bind, Except.bind, withContinue, Except.map] at h
  | ok agent =>
    rw [hp] at h
    simp only [bind, Except.bind] at h
    by_cases hcond : (isThinkingType (pyGet data "block_type") && st.show_thinking
        && !(pyGet data "block_index").isNone) = true
    · rw [if_pos hcond] at h
      cases hk : (pyGet data "block_index").asKey with
      | none =>
        rw [hk] at h
        simp [withContinue, Except.map] at h
      | some k =>
        rw [hk] at h
        simp only at h
        have hstate : out.state.thinking_blocks
            = mapInsert st.thinking_blocks k ⟨true, agent⟩ := by
          split at h
          · simp [withContinue, Except.map] at h
            subst h
            rfl
          · simp [withContinue, Except.map] at h
            subst h
            rfl
        refine ⟨?_, ?_, ?_⟩
        · intro hfalse
          rw [hcond] at hfalse
          cases hfalse
        · intro _
          exact ⟨k, rfl, by rw [mapContains, hstate, mapFind_mapInsert]; rfl⟩
        · intro htext
          rw [htext] at hcond
          simp [isThinkingType] at hcond
    · rw [if_neg hcond] at h
      simp [withContinue, Except.map] at h
      subst h
      exact ⟨fun _ => rfl, fun htrue => absurd htrue hcond, fun _ => rfl⟩

/-- Witness for C8: a text block-start on a fresh instance changes
nothing. -/
theorem c8_start_tracks_iff_witness :
    (⟨st0, [], [], ⟨"continue"⟩⟩ : HandlerOut).state.thinking_blocks
      = st0.thinking_blocks :=
  (c8_start_tracks_iff st0 [("block_type", .str "text")]
    ⟨st0, [], [], ⟨"continue"⟩⟩ rfl).2.2 rfl

/-! ## C1: block-end tracking cleanup -/

/-- C1 counterexample: with block index 0 tracked, an end event whose
`block` payload is the empty mapping (so it lacks a type field) completes
without removing the tracked entry — the resulting state still tracks
index 0, contradicting the claim that the entry is always cleared. -/
theorem c1_counterexample_leaked_entry :
    mapContains stTracked.thinking_blocks (.intK 0) = true ∧
    (PyVal.int 0).asKey = Option.some (.intK 0) ∧
    handle_content_block_end stTracked [("block_index", .int 0), ("block", .dict [])]
      = .ok ⟨stTracked, [], [], ⟨"continue"⟩⟩ :=
  ⟨rfl, rfl, rfl⟩

/-- C1 as amended: for an end event whose tracked block index is present
in the tracking map and whose block payload is a mapping with a
`thinking`/`reasoning` type field, the handler removes the index from the
tracking map whether or not any display text was extracted; an end block
lacking such a type field leaves the entry tracked. -/
theorem c1_amended_cleared_when_type_matches :
    ∀ (st : UIState) (data : List (String × PyVal)) (bes : List (String × PyVal))
      (k : PyKey) (out : HandlerOut),
      pyGetD data "block" (.dict []) = PyVal.dict bes →
      isThinkingType (pyGet bes "type") = true →
      (pyGet data "block_index").isNone = false →
      (pyGet data "block_index").asKey = Option.some k →
      mapContains st.thinking_blocks k = true →
      handle_content_block_end st data = .ok out →
      mapContains out.state.thinking_blocks k = false := by
  intro st data bes k out hb htype hnn hk htracked h
  rw [handle_content_block_end, handle_content_block_end_core] at h
  rw [hb] at h
  simp only at h
  have hcond : (isThinkingType (pyGet bes "type")
      && !(pyGet data "block_index").isNone) = true := by
    rw [htype, hnn]
    rfl
  rw [if_pos hcond, hk] at h
  simp only at h
  cases hf : mapFind st.thinking_blocks k with
  | none =>
    rw [mapContains, hf] at htracked
    simp at htracked
  | some entry =>
    rw [hf] at h
    simp only at h
    split at h
    · split at h
      · split at h
        · simp [withContinue, Except.map, bind, Except.bind, pure, Except.pure] at h
          subst h
          show (mapFind (mapErase st.thinking_blocks k) k).isSome = false
          rw [mapFind_mapErase]
          rfl
        · simp [withContinue, Except.map, bind, Except.bind, pure, Except.pure] at h
          subst h
          show (mapFind (mapErase st.thinking_blocks k) k).isSome = false
          rw [mapFind_mapErase]
          rfl
      · simp [withContinue, Except.map, bind, Except.bind] at h
    · simp [withContinue, Except.map, bind, Except.bind, pure, Except.pure] at h
      subst h
      show (mapFind (mapErase st.thinking_blocks k) k).isSome = false
      rw [mapFind_mapErase]
      rfl

/-- Witness for C1 as amended: an end event carrying
`type="thinking"`, `thinking="hi"` for the tracked index 0. -/
theorem c1_amended_cleared_witness :
    mapContains
      (⟨st0, parentThinkingLines "hi", [], ⟨"continue"⟩⟩ : HandlerOut).state.thinking_blocks
      (.intK 0) = false :=
  c1_amended_cleared_when_type_matches stTracked
    [("block_index", .int 0), ("block", .dict [("type", .str "thinking"), ("thinking", .str "hi")])]
    [("type", .str "thinking"), ("thinking", .str "hi")] (.intK 0)
    ⟨st0, parentThinkingLines "hi", [], ⟨"continue"⟩⟩
    rfl rfl rfl rfl rfl rfl

/-! ## C3: truncation rule -/

/-- C3: truncation coerces non-string input to its string form (`None` to
empty), renders the empty string as `"(empty)"`, character-truncates a
single line over 200 characters with an omitted-character suffix, returns
text whose line count fits unchanged, and otherwise keeps the first
`max_lines` lines plus an omitted-line-count line, joined by newlines
(with the claim's concrete 5-line example). -/
theorem c3_truncation_rule :
    (∀ m : Int, truncate_lines .pyNone m = "(empty)") ∧
    (∀ m : Int, truncate_lines (.pyStr "") m = "(empty)") ∧
    (∀ (f : String) (m : Int), truncate_lines (.other f) m = truncate_lines (.pyStr f) m) ∧
    (∀ (s : String) (m : Int), s ≠ "" → (pySplitLines s).length = 1 → 200 < s.length →
      truncate_lines (.pyStr s) m = s.take 200 ++ charSuffix (s.length - 200)) ∧
    (∀ (s : String) (m : Int), s ≠ "" → ¬((pySplitLines s).length = 1 ∧ 200 < s.length) →
      ((pySplitLines s).length : Int) ≤ m → truncate_lines (.pyStr s) m = s) ∧
    (∀ (s : String) (m : Int), 0 ≤ m → s ≠ "" →
      ¬((pySplitLines s).length = 1 ∧ 200 < s.length) →
      m < ((pySplitLines s).length : Int) →
      truncate_lines (.pyStr s) m = String.intercalate "\n"
        ((pySplitLines s).take m.toNat
          ++ [lineSuffix (((pySplitLines s).length : Int) - m)])) ∧
    truncate_lines (.pyStr "line1\nline2\nline3\nline4\nline5") 3
      = "line1\nline2\nline3\n... (2 more lines)" := by
  refine ⟨fun m => rfl, fun m => rfl, fun f m => rfl, ?_, ?_, ?_, by rfl⟩
  · intro s m hne h1 h2
    simp only [truncate_lines]
    rw [if_neg hne, if_pos ⟨h1, h2⟩]
  · intro s m hne h12 hle
    simp only [truncate_lines]
    rw [if_neg hne, if_neg h12, if_pos hle]
  · intro s m hm hne h12 hlt
    simp only [truncate_lines]
    rw [if_neg hne, if_neg h12, if_neg (not_le.mpr hlt)]
    rw [pySliceTo, if_pos hm]

set_option maxRecDepth 4000 in
/-- Witness for C3: an in-limit string, an over-limit string and a
201-character single line. -/
theorem c3_truncation_rule_witness :
    truncate_lines (.pyStr "ab\ncd") 3 = "ab\ncd" ∧
    truncate_lines (.pyStr (String.mk (List.replicate 201 'x'))) 5
      = (String.mk (List.replicate 201 'x')).take 200
        ++ charSuffix ((String.mk (List.replicate 201 'x')).length - 200) :=
  ⟨c3_truncation_rule.2.2.2.2.1 "ab\ncd" 3 (by decide) (by decide) (by decide),
   c3_truncation_rule.2.2.2.1 (String.mk (List.replicate 201 'x')) 5
     (by decide) (by decide) (by decide)⟩

/-! ## C5: reasoning-block flattening -/

theorem mem_collect_ne : ∀ (v : PyVal), ∀ s ∈ collect v, s ≠ "" := by
  intro v
  induction v using collect.induct with
  | case1 => simp [collect]
  | case2 n => simp [collect]
  | case3 b => simp [collect]
  | case4 => simp [collect]
  | case5 s hs =>
    intro t ht
    simp only [collect, if_neg hs, List.mem_singleton] at ht
    exact ht ▸ hs
  | case6 es ih1 ih2 ih3 ih4 =>
    intro t ht
    simp only [collect, List.mem_append] at ht
    rcases ht with ((h | h) | h) | h
    · exact ih1 t h
    · exact ih2 t h
    · exact ih3 t h
    · exact ih4 t h
  | case7 items ih =>
    intro t ht
    simp only [collect] at ht
    rw [List.attach_map_val items collect] at ht
    rw [List.mem_flatten] at ht
    obtain ⟨l, hl, htl⟩ := ht
    rw [List.mem_map] at hl
    obtain ⟨x, hx, rfl⟩ := hl
    exact ih ⟨x, hx⟩ t htl

/-- C5 counterexample: the claim's uniform field order (`text` before
`thinking` at every mapping) predicts `"a\nb"` on the payload
`\x7bthinking: "b", text: "a"\x7d`, but the function visits the top-level
`thinking` field first and produces `"b\na"`. -/
theorem c5_counterexample_top_level_order :
    flatten_reasoning_block [("thinking", PyVal.str "b"), ("text", PyVal.str "a")] = "b\na" ∧
    claimedFlatten [("thinking", PyVal.str "b"), ("text", PyVal.str "a")] = "a\nb" ∧
    flatten_reasoning_block [("thinking", PyVal.str "b"), ("text", PyVal.str "a")]
      ≠ claimedFlatten [("thinking", PyVal.str "b"), ("text", PyVal.str "a")] := by
  refine ⟨?_, ?_, ?_⟩ <;>
    simp [flatten_reasoning_block, claimedFlatten, collect, pyGet, pyGetD, lookupEntry] <;>
    decide

/-- C5 as amended: the flattening is a deterministic, order-preserving
depth-first traversal that visits the top-level block fields in the order
`thinking, text, summary, content`, visits *nested* mapping fields in the
order `text, thinking, summary, content` and sequence elements in order,
keeps only non-empty string fragments (so the final truthiness filter
drops nothing), and joins the fragments with newlines; on
`\x7bsummary: [\x7btext: "a"\x7d, \x7bcontent: "b"\x7d]\x7d` it yields
`"a\nb"`. -/
theorem c5_amended_flattening :
    (∀ v : PyVal, (collect v).filter (fun s => s != "") = collect v) ∧
    (∀ es : List (String × PyVal), collect (PyVal.dict es)
      = collect (pyGet es "text") ++ collect (pyGet es "thinking")
        ++ collect (pyGet es "summary") ++ collect (pyGet es "content")) ∧
    (∀ items : List PyVal, collect (PyVal.list items) = (items.map collect).flatten) ∧
    (∀ block : List (String × PyVal), flatten_reasoning_block block
      = String.intercalate "\n"
          (collect (pyGet block "thinking") ++ collect (pyGet block "text")
            ++ collect (pyGet block "summary") ++ collect (pyGet block "content"))) ∧
    flatten_reasoning_block
        [("summary", PyVal.list [PyVal.dict [("text", PyVal.str "a")],
                                 PyVal.dict [("content", PyVal.str "b")]])]
      = "a\nb" := by
  have hfilter : ∀ v : PyVal, (collect v).filter (fun s => s != "") = collect v := by
    intro v
    refine List.filter_eq_self.mpr ?_
    intro a ha
    simpa [bne_iff_ne] using mem_collect_ne v a ha
  refine ⟨hfilter, ?_, ?_, ?_, ?_⟩
  · intro es
    rw [collect]
  · intro items
    rw [collect, List.attach_map_val items collect]
  · intro block
    rw [flatten_reasoning_block]
    simp only [List.filter_append, hfilter]
  · simp [flatten_reasoning_block, collect, pyGet, pyGetD, lookupEntry]
    rfl

end StreamingUI
